import Mathlib

/-!
Shallow embedding of the EverTrust horizon-issuer certificate-request
reconciler (src/controllers/certificaterequest_controller.go) and proofs
about it.

Modelling conventions:
* Go strings and byte slices are Lean String values.
* Go nil maps are modelled by Option: the Annotations field of a
  CertificateRequest is an Option association list, none standing for a nil
  map (reads of a nil map yield the zero value; a write faults).
* The external collaborators (object store, Horizon PKI service, URL parser,
  clock) are an explicit environment record of oracle functions, so one
  reconcile invocation is a pure function of the loaded object and that
  environment.
* A Go panic (and only a panic) is modelled by an Option-none result of the
  whole reconcile.
* Condition LastTransitionTime fields are elided: no property below refers
  to condition timestamps, only to Status.FailureTime, which is kept.
* The initial object-store Get of the CertificateRequest itself (and the
  not-found early return) is outside the model: reconcile takes the already
  loaded object.
-/

namespace HorizonIssuer

/-- A status condition, after cert-manager's CertificateRequestCondition:
Type, Status ("True"/"False"/"Unknown"), Reason, Message. -/
structure CRCondition where
  ctype : String
  status : String
  reason : String
  message : String
deriving DecidableEq, Repr

/-- cert-manager cmutil.CertificateRequestHasCondition: some existing
condition has the given Type and Status, and the given Reason when that
Reason is nonempty (an empty Reason acts as a wildcard). -/
def hasCondition (conds : List CRCondition) (t s r : String) : Bool :=
  conds.any (fun c => c.ctype == t && c.status == s && (r == "" || r == c.reason))

/-- cert-manager cmutil.SetCertificateRequestCondition: replace the first
condition of the same Type, or append a new one (timestamp elided). -/
def setCondition (conds : List CRCondition) (c : CRCondition) : List CRCondition :=
  match conds with
  | [] => [c]
  | c0 :: rest => if c0.ctype == c.ctype then c :: rest else c0 :: setCondition rest c

/-- First condition of the given Type, if any. -/
def getCondition (conds : List CRCondition) (t : String) : Option CRCondition :=
  conds.find? (fun c => c.ctype == t)

/-- cert-manager cmutil.CertificateRequestIsDenied: a Denied condition with
Status True exists. -/
def isDenied (conds : List CRCondition) : Bool :=
  conds.any (fun c => c.ctype == "Denied" && c.status == "True")

/-- cert-manager cmutil.CertificateRequestIsApproved: an Approved condition
with Status True exists. -/
def isApproved (conds : List CRCondition) : Bool :=
  conds.any (fun c => c.ctype == "Approved" && c.status == "True")

/-- The loaded cmapi.CertificateRequest, restricted to the fields the
reconciler reads or writes. ns is ObjectMeta.Namespace; request is
Spec.Request (the raw CSR bytes); certificate is Status.Certificate (none
for an unset slice); failureTime is Status.FailureTime as an abstract clock
reading. The Annotations map is none when the Go map is nil. -/
structure CertificateRequest where
  ns : String
  issuerRefGroup : String
  issuerRefKind : String
  issuerRefName : String
  request : String
  annotations : Option (List (String × String))
  conditions : List CRCondition
  certificate : Option String
  failureTime : Option Nat
deriving DecidableEq, Repr

/-- Go read of a possibly-nil map: nil reads return the zero value (none). -/
def annLookup (m : Option (List (String × String))) (k : String) : Option String :=
  match m with
  | none => none
  | some l => (l.find? (fun p => p.1 == k)).map (fun p => p.2)

/-- Go map assignment on a non-nil map: overwrite the existing key or add it. -/
def annInsert (l : List (String × String)) (k v : String) : List (String × String) :=
  if l.any (fun p => p.1 == k) then
    l.map (fun p => if p.1 == k then (k, v) else p)
  else
    l ++ [(k, v)]

/-- The fixed correlation-annotation key (source variable requestId-
prefixed, value "horizon.evertrust.io/request-id"). -/
def requestIdKey : String := "horizon.evertrust.io/request-id"

/-- An Horizon request mirrored locally: Id, Status, and the certificate
body reached as request.Certificate.Certificate. -/
structure ExternalRequest where
  id : String
  status : String
  certificate : String
deriving DecidableEq, Repr

/-- One call made to the Horizon client during a reconcile:
Requests.DecentralizedEnroll(profile, csr, labels) or Requests.Get(id). -/
inductive ExtCall where
  | enroll (profile csr : String) (labels : List (String × String))
  | getById (id : String)
deriving DecidableEq, Repr

/-- The reconciler's error values, one constructor per sentinel error plus
the two anonymous fmt.Errorf sites; aggregate1/aggregate2 stand for
utilerrors.NewAggregate applied to one or two non-nil errors. -/
inductive RError where
  | issuerRef (detail : String)
  | getIssuer (detail : String)
  | issuerNotReady
  | getAuthSecret (detail : String)
  | invalidBaseUrl (detail : String)
  | unknownHorizon (detail : String)
  | unexpectedIssuerType (detail : String)
  | apiError (detail : String)
  | aggregate1 (e : RError)
  | aggregate2 (e1 e2 : RError)
deriving DecidableEq, Repr

/-- The Error() text of each error value (details abbreviate the dynamic
parts of the Go messages; no property depends on the aggregate texts). -/
def RError.text : RError → String
  | .issuerRef d => "error interpreting issuerRef: " ++ d
  | .getIssuer d => "error getting issuer: " ++ d
  | .issuerNotReady => "issuer is not ready"
  | .getAuthSecret d => "failed to get Secret containing Issuer credentials: " ++ d
  | .invalidBaseUrl d => "invalid base url: " ++ d
  | .unknownHorizon d => "horizon returned an error: " ++ d
  | .unexpectedIssuerType d => "unexpected issuer type: " ++ d
  | .apiError d => d
  | .aggregate1 e => "[" ++ e.text ++ "]"
  | .aggregate2 e1 e2 => "[" ++ e1.text ++ ", " ++ e2.text ++ "]"

/-- utilerrors.NewAggregate([err, updateErr]) with updateErr non-nil: nils
are filtered, so the result aggregates one or two errors. -/
def mkAggregate (e : Option RError) (ue : RError) : RError :=
  match e with
  | none => .aggregate1 ue
  | some e0 => .aggregate2 e0 ue

/-- ctrl.Result: Requeue flag and RequeueAfter duration (in seconds). -/
structure CtrlResult where
  requeue : Bool
  requeueAfter : Nat
deriving DecidableEq, Repr

/-- The zero ctrl.Result value: no retry directive. -/
def zeroResult : CtrlResult := ⟨false, 0⟩

/-- time.Minute, in seconds. -/
def timeMinute : Nat := 60

/-- Modelled from the spec: the referenced Issuer resource as seen through
issuerutil.GetSpecAndStatus and issuerutil.IsReady (controllers/util is not
under src/). spec carries Spec{URL, Profile, AuthSecretName}; ready is the
truth of the Ready condition on its status. GetSpecAndStatus is modelled as
always succeeding for the supported namespaced Issuer variant, per spec
section 4.2. -/
structure IssuerSpec where
  url : String
  profile : String
  authSecretName : String
deriving DecidableEq, Repr

/-- An Issuer resource: its spec plus its readiness (see IssuerSpec). -/
structure IssuerRes where
  spec : IssuerSpec
  ready : Bool
deriving DecidableEq, Repr

/-- The reconciler's environment for one invocation: its configuration, the
object-store reads, the URL parser, the Horizon client's two operations,
the outcomes of the two writes, and the clock.
* ourGroup is issuerapi.GroupVersion.Group.
* recognizedKinds are the kinds Scheme.New accepts for that group.
* getIssuer ns name is r.Get of the Issuer (none = get error).
* getSecret ns name is r.Get of the credentials Secret, returning its Data.
* urlParses url models whether url.Parse succeeds.
* horizonEnroll profile csr labels and horizonGet id are the two Horizon
  operations, either failing with a message or returning a request.
* updateErr is the outcome of r.Update (the annotation persist);
  statusUpdateErr the outcome of r.Status().Update in the deferred block.
* now is r.Clock.Now(). -/
structure Env where
  ourGroup : String
  recognizedKinds : List String
  getIssuer : String → String → Option IssuerRes
  getSecret : String → String → Option (List (String × String))
  urlParses : String → Bool
  horizonEnroll : String → String → List (String × String) → Except String ExternalRequest
  horizonGet : String → Except String ExternalRequest
  updateErr : Option String
  statusUpdateErr : Option String
  now : Nat

/-- Sets the Ready condition, as the setReadyCondition closure in Reconcile. -/
def setReady (cr : CertificateRequest) (s reason msg : String) : CertificateRequest :=
  { cr with conditions := setCondition cr.conditions ⟨"Ready", s, reason, msg⟩ }

/-- The outcome of the classification-and-action step (the body of
Reconcile between the deferred block's installation and its run): the
mutated in-memory object, the returned ctrl.Result and error, and the
Horizon calls made, in order. -/
structure InnerOut where
  req : CertificateRequest
  result : CtrlResult
  err : Option RError
  calls : List ExtCall
deriving Repr

/-- The classification-and-action step of Reconcile (lines 137-269 of
certificaterequest_controller.go), from the denial check to the return.
A none result models the Go panic on assignment to an entry of a nil
Annotations map at the request-id store. -/
def inner (env : Env) (cr : CertificateRequest) : Option InnerOut :=
  if isDenied cr.conditions then
    let cr1 := if cr.failureTime.isNone then { cr with failureTime := some env.now } else cr
    let cr2 := setReady cr1 "False" "Denied"
      "The CertificateRequest was denied by an approval controller"
    some ⟨cr2, zeroResult, none, []⟩
  else if !(env.recognizedKinds.contains cr.issuerRefKind) then
    let e : RError := .issuerRef cr.issuerRefKind
    some ⟨setReady cr "False" "Failed" e.text, zeroResult, none, []⟩
  else if cr.issuerRefKind != "Issuer" then
    let e : RError := .unexpectedIssuerType cr.issuerRefKind
    some ⟨setReady cr "False" "Failed" e.text, zeroResult, none, []⟩
  else
    match env.getIssuer cr.ns cr.issuerRefName with
    | none => some ⟨cr, zeroResult, some (.getIssuer cr.issuerRefName), []⟩
    | some iss =>
      if !iss.ready then
        some ⟨cr, zeroResult, some .issuerNotReady, []⟩
      else
        match env.getSecret cr.ns iss.spec.authSecretName with
        | none => some ⟨cr, zeroResult, some (.getAuthSecret iss.spec.authSecretName), []⟩
        | some _secretData =>
          if !(env.urlParses iss.spec.url) then
            some ⟨cr, zeroResult, some (.invalidBaseUrl iss.spec.url), []⟩
          else
            -- HorizonClient.Init(baseUrl, username, password): session
            -- initialization, no locally observable effect.
            if !(isApproved cr.conditions) then
              match annLookup cr.annotations requestIdKey with
              | some requestId =>
                match env.horizonGet requestId with
                | .error msg =>
                  some ⟨cr, zeroResult, some (.unknownHorizon msg), [.getById requestId]⟩
                | .ok request =>
                  if request.status == "completed" then
                    let approvedCond : CRCondition :=
                      ⟨"Approved", "True", "horizon.evertrust.io", "Request approved on Horizon"⟩
                    let cr1 := { cr with conditions := setCondition cr.conditions approvedCond }
                    let cr2 := { cr1 with certificate := some request.certificate }
                    let cr3 := setReady cr2 "True" "Issued" "Signed"
                    some ⟨cr3, zeroResult, none, [.getById requestId]⟩
                  else
                    some ⟨cr, ⟨true, timeMinute⟩, none, [.getById requestId]⟩
              | none =>
                match env.horizonEnroll iss.spec.profile cr.request [] with
                | .error msg =>
                  some ⟨cr, zeroResult, some (.unknownHorizon msg),
                    [.enroll iss.spec.profile cr.request []]⟩
                | .ok request =>
                  match cr.annotations with
                  | none => none
                  | some anns =>
                    let cr1 := { cr with
                      annotations := some (annInsert anns requestIdKey request.id) }
                    match env.updateErr with
                    | some msg =>
                      -- the code wraps the r.Update failure in
                      -- errGetAuthSecret (a copy-paste slip kept as is)
                      some ⟨cr1, zeroResult, some (.getAuthSecret msg),
                        [.enroll iss.spec.profile cr.request []]⟩
                    | none =>
                      let cr2 := setReady cr1 "False" "Pending" "Submitted request to Horizon"
                      some ⟨cr2, ⟨true, timeMinute⟩, none,
                        [.enroll iss.spec.profile cr.request []]⟩
            else
              some ⟨cr, zeroResult, none, []⟩

/-- The final outcome of one reconcile: the in-memory object when control
returns, the returned ctrl.Result and error, the Horizon calls made, and
how many times the status sub-resource update was attempted. -/
structure ReconcileOutput where
  req : CertificateRequest
  result : CtrlResult
  err : Option RError
  calls : List ExtCall
  persistAttempts : Nat
deriving Repr

/-- The deferred block of Reconcile (lines 127-135): when the body returned
an error, force Ready to False/Pending with the error text; then attempt
r.Status().Update once; when that fails, aggregate the two errors and zero
the result. -/
def applyDefer (env : Env) (io : InnerOut) : ReconcileOutput :=
  let req1 := match io.err with
    | some e => setReady io.req "False" "Pending" e.text
    | none => io.req
  match env.statusUpdateErr with
  | none => ⟨req1, io.result, io.err, io.calls, 1⟩
  | some msg => ⟨req1, zeroResult, some (mkAggregate io.err (.apiError msg)), io.calls, 1⟩

/-- The early-ignore screen of Reconcile (lines 81-112): foreign issuerRef
group, or a Ready condition that is already True, or already False with
reason Failed or Denied. These paths return before the deferred persist is
installed. -/
def earlyIgnore (env : Env) (cr : CertificateRequest) : Bool :=
  cr.issuerRefGroup != env.ourGroup
  || hasCondition cr.conditions "Ready" "True" ""
  || hasCondition cr.conditions "Ready" "False" "Failed"
  || hasCondition cr.conditions "Ready" "False" "Denied"

/-- One full reconcile of a loaded CertificateRequest: the early-ignore
screen, then the classification-and-action step wrapped by the deferred
status persist. -/
def reconcile (env : Env) (cr : CertificateRequest) : Option ReconcileOutput :=
  if earlyIgnore env cr then
    some ⟨cr, zeroResult, none, [], 0⟩
  else
    (inner env cr).map (applyDefer env)

/-- A sequence of reconciles threaded through the in-memory object, also
accumulating every Horizon call made along the way; none when some step
faulted. -/
def runSeq (envs : List Env) (cr : CertificateRequest) :
    Option (CertificateRequest × List ExtCall) :=
  match envs with
  | [] => some (cr, [])
  | e :: rest =>
    match reconcile e cr with
    | none => none
    | some out => (runSeq rest out.req).map (fun p => (p.1, out.calls ++ p.2))


/-- The conjunction of conditions under which the action step reaches the
instantiated Horizon client: not screened out early, not denied, a
recognized issuerRef kind of the supported Issuer variant, an issuer that
is found and Ready, a fetchable credential secret, and a parseable URL. -/
def reachesClient (env : Env) (cr : CertificateRequest) (iss : IssuerRes) : Prop :=
  earlyIgnore env cr = false ∧
  isDenied cr.conditions = false ∧
  env.recognizedKinds.contains cr.issuerRefKind = true ∧
  cr.issuerRefKind = "Issuer" ∧
  env.getIssuer cr.ns cr.issuerRefName = some iss ∧
  iss.ready = true ∧
  (env.getSecret cr.ns iss.spec.authSecretName).isSome = true ∧
  env.urlParses iss.spec.url = true

/-- Two environments that differ at most in the Horizon responses and the
clock: same configuration, object-store contents and write outcomes. -/
def envAgrees (e1 e2 : Env) : Prop :=
  e1.ourGroup = e2.ourGroup ∧ e1.recognizedKinds = e2.recognizedKinds ∧
  e1.getIssuer = e2.getIssuer ∧ e1.getSecret = e2.getSecret ∧
  e1.urlParses = e2.urlParses ∧ e1.updateErr = e2.updateErr ∧
  e1.statusUpdateErr = e2.statusUpdateErr

/-! Concrete fixtures used by witnesses and counterexamples. -/

/-- A Ready issuer "iss1" with URL "https://pki.example", profile
"webserver", credential secret "cred". -/
def fxIss : IssuerRes := ⟨⟨"https://pki.example", "webserver", "cred"⟩, true⟩

/-- A healthy baseline environment: our group, Issuer kind registered,
issuer iss1 Ready in namespace default, secret cred present, URLs parse,
enrollment of the webserver/CSR0 pair yields request req-42, writes
succeed. -/
def fxEnv : Env where
  ourGroup := "horizon.k8s.evertrust.io"
  recognizedKinds := ["Issuer"]
  getIssuer := fun ns n => if ns == "default" && n == "iss1" then some fxIss else none
  getSecret := fun ns n =>
    if ns == "default" && n == "cred" then some [("username", "u"), ("password", "p")] else none
  urlParses := fun _ => true
  horizonEnroll := fun p c _ =>
    if p == "webserver" && c == "CSR0" then .ok ⟨"req-42", "pending", ""⟩
    else .error "enroll refused"
  horizonGet := fun _ => .error "unknown id"
  updateErr := none
  statusUpdateErr := none
  now := 41

/-- fxEnv with the Horizon poll answering pending for req-42. -/
def fxEnvPend : Env :=
  { fxEnv with horizonGet := fun i =>
      if i == "req-42" then .ok ⟨"req-42", "pending", ""⟩ else .error "unknown id" }

/-- fxEnv with the Horizon poll answering completed with CERTDATA. -/
def fxEnvDone : Env :=
  { fxEnv with horizonGet := fun i =>
      if i == "req-42" then .ok ⟨"req-42", "completed", "CERTDATA"⟩ else .error "unknown id" }

/-- fxEnv with an unparseable issuer URL. -/
def fxEnvBadUrl : Env := { fxEnv with urlParses := fun _ => false }

/-- fxEnv with iss1 not Ready and a conflicting status update. -/
def fxEnvNotReady : Env :=
  { fxEnv with
    getIssuer := fun ns n =>
      if ns == "default" && n == "iss1" then some ⟨fxIss.spec, false⟩ else none,
    statusUpdateErr := some "the object has been modified" }

/-- fxEnv with the ClusterIssuer kind also registered in the scheme. -/
def fxEnvVariant : Env := { fxEnv with recognizedKinds := ["Issuer", "ClusterIssuer"] }

/-- A fresh CertificateRequest of our group: empty (but non-nil)
annotations, no conditions yet. -/
def fxCR : CertificateRequest :=
  ⟨"default", "horizon.k8s.evertrust.io", "Issuer", "iss1", "CSR0", some [], [], none, none⟩

/-- fxCR addressed to a foreign issuer group. -/
def fxCRForeign : CertificateRequest := { fxCR with issuerRefGroup := "cert-manager.io" }

/-- fxCR after submission: correlation id req-42 stored, Ready
False/Pending. -/
def fxCRPolling : CertificateRequest :=
  { fxCR with
    annotations := some [(requestIdKey, "req-42")],
    conditions := [⟨"Ready", "False", "Pending", "Submitted request to Horizon"⟩] }

/-- fxCRPolling additionally marked denied by an approval controller while
its Ready condition is still the non-terminal False/Pending. -/
def fxCRDeniedMid : CertificateRequest :=
  { fxCRPolling with
    conditions := fxCRPolling.conditions ++ [⟨"Denied", "True", "policy", "denied"⟩] }

/-- fxCR with a Denied approval condition and no FailureTime yet. -/
def fxCRDenied : CertificateRequest :=
  { fxCR with conditions := [⟨"Denied", "True", "policy", "denied"⟩] }

/-- fxCRDenied with FailureTime already populated at clock 7. -/
def fxCRDeniedSet : CertificateRequest := { fxCRDenied with failureTime := some 7 }

/-- fxCR carrying no annotations at all (a nil Go map). -/
def fxCRNil : CertificateRequest := { fxCR with annotations := none }

/-- fxCR addressed to the registered but unsupported ClusterIssuer kind. -/
def fxCRVariant : CertificateRequest := { fxCR with issuerRefKind := "ClusterIssuer" }

/-- fxCR addressed to a kind the scheme does not know. -/
def fxCRUnknownKind : CertificateRequest := { fxCR with issuerRefKind := "FooIssuer" }

/-- The in-memory object right after a successful submission of a fresh
request: the returned id stored under the correlation key and a single
Ready False/Pending condition. -/
def submittedCR (cr : CertificateRequest) (anns : List (String × String))
    (rid : String) : CertificateRequest :=
  { cr with
    annotations := some (annInsert anns requestIdKey rid),
    conditions := [⟨"Ready", "False", "Pending", "Submitted request to Horizon"⟩] }

/-- The in-memory object right after completion of a submitted request:
certificate copied, Approved set, Ready replaced by True/Issued. -/
def issuedCR (cr : CertificateRequest) (anns : List (String × String))
    (rid certBytes : String) : CertificateRequest :=
  { cr with
    annotations := some (annInsert anns requestIdKey rid),
    conditions := [⟨"Ready", "True", "Issued", "Signed"⟩,
      ⟨"Approved", "True", "horizon.evertrust.io", "Request approved on Horizon"⟩],
    certificate := some certBytes }

theorem find?_map_overwrite (k v : String) (l : List (String × String))
    (hAny : (l.any fun p => p.1 == k) = true) :
    (l.map (fun p => if p.1 == k then (k, v) else p)).find? (fun p => p.1 == k)
      = some (k, v) := by
  induction l with
  | nil => simp at hAny
  | cons p t ih =>
    rw [List.map_cons, List.find?_cons_eq_some]
    by_cases hp : (p.1 == k) = true
    · left
      rw [if_pos hp]
      simp
    · right
      rw [if_neg hp]
      refine ⟨by simp [hp], ih ?_⟩
      simpa [List.any_cons, hp] using hAny

theorem find?_annInsert (l : List (String × String)) (k v : String) :
    (annInsert l k v).find? (fun p => p.1 == k) = some (k, v) := by
  unfold annInsert
  by_cases hAny : (l.any fun p => p.1 == k) = true
  · rw [if_pos hAny]
    exact find?_map_overwrite k v l hAny
  · rw [if_neg hAny, List.find?_append]
    have h1 : l.find? (fun p => p.1 == k) = none := by
      rw [List.find?_eq_none]
      intro x hx hpx
      exact hAny (List.any_eq_true.mpr ⟨x, hx, hpx⟩)
    rw [h1]
    simp

theorem annLookup_annInsert (l : List (String × String)) (k v : String) :
    annLookup (some (annInsert l k v)) k = some v := by
  simp [annLookup, find?_annInsert]

theorem getCondition_setCondition_self (conds : List CRCondition) (c : CRCondition) :
    getCondition (setCondition conds c) c.ctype = some c := by
  induction conds with
  | nil => simp [setCondition, getCondition, List.find?]
  | cons c0 rest ih =>
    unfold getCondition at ih ⊢
    rw [show setCondition (c0 :: rest) c
        = if (c0.ctype == c.ctype) = true then c :: rest else c0 :: setCondition rest c from rfl]
    by_cases h : (c0.ctype == c.ctype) = true
    · simp only [h, if_true]
      rw [List.find?_cons_eq_some]
      left
      simp
    · simp only [h, if_false, Bool.false_eq_true]
      rw [List.find?_cons_eq_some]
      right
      exact ⟨by simp [h], ih⟩

theorem inner_failureTime (env : Env) (cr : CertificateRequest) (io : InnerOut)
    (h : inner env cr = some io) (t : Nat) (ht : cr.failureTime = some t) :
    io.req.failureTime = some t := by
  unfold inner at h
  repeat' split at h
  all_goals (try cases h)
  all_goals simp_all [setReady]

theorem inner_ann_noEnroll (env : Env) (cr : CertificateRequest) (io : InnerOut)
    (h : inner env cr = some io) (rid : String)
    (ha : annLookup cr.annotations requestIdKey = some rid) :
    annLookup io.req.annotations requestIdKey = some rid ∧
      (∀ p c labels, ExtCall.enroll p c labels ∉ io.calls) := by
  unfold inner at h
  repeat' split at h
  all_goals (try cases h)
  all_goals simp_all [setReady]

theorem inner_total (env : Env) (cr : CertificateRequest)
    (ha : cr.annotations ≠ none) : (inner env cr).isSome := by
  unfold inner
  repeat' split
  all_goals simp_all



theorem applyDefer_proj (env : Env) (io : InnerOut) :
    (applyDefer env io).req.failureTime = io.req.failureTime ∧
    (applyDefer env io).req.annotations = io.req.annotations ∧
    (applyDefer env io).req.certificate = io.req.certificate ∧
    (applyDefer env io).calls = io.calls ∧
    (applyDefer env io).persistAttempts = 1 := by
  unfold applyDefer
  repeat' split
  all_goals simp [setReady]


theorem mem_of_contains {l : List String} {a : String} (h : l.contains a = true) :
    a ∈ l := by
  rw [List.contains] at h
  exact List.elem_iff.mp h

theorem reconcile_eq_of_inner (env : Env) (cr : CertificateRequest) (io : InnerOut)
    (hscreen : earlyIgnore env cr = false) (hio : inner env cr = some io) :
    reconcile env cr = some (applyDefer env io) := by
  unfold reconcile
  rw [hscreen]
  simp [hio]

theorem applyDefer_of_ok (env : Env) (io : InnerOut)
    (hpersist : env.statusUpdateErr = none) (herr : io.err = none) :
    applyDefer env io = ⟨io.req, io.result, none, io.calls, 1⟩ := by
  unfold applyDefer
  rw [hpersist, herr]

theorem applyDefer_of_err_persistOk (env : Env) (io : InnerOut) (e : RError)
    (hpersist : env.statusUpdateErr = none) (herr : io.err = some e) :
    applyDefer env io
      = ⟨setReady io.req "False" "Pending" e.text, io.result, some e, io.calls, 1⟩ := by
  unfold applyDefer
  rw [hpersist, herr]

theorem applyDefer_of_err_persistFail (env : Env) (io : InnerOut) (e : RError) (msg : String)
    (hpersist : env.statusUpdateErr = some msg) (herr : io.err = some e) :
    applyDefer env io
      = ⟨setReady io.req "False" "Pending" e.text, zeroResult,
          some (.aggregate2 e (.apiError msg)), io.calls, 1⟩ := by
  unfold applyDefer
  rw [hpersist, herr]
  rfl

theorem reconcile_failureTime (env : Env) (cr : CertificateRequest)
    (out : ReconcileOutput) (h : reconcile env cr = some out) (t : Nat)
    (ht : cr.failureTime = some t) : out.req.failureTime = some t := by
  unfold reconcile at h
  split at h
  · cases h
    exact ht
  · rw [Option.map_eq_some'] at h
    obtain ⟨io, hio, rfl⟩ := h
    rw [(applyDefer_proj env io).1]
    exact inner_failureTime env cr io hio t ht

theorem reconcile_ann_noEnroll (env : Env) (cr : CertificateRequest)
    (out : ReconcileOutput) (h : reconcile env cr = some out) (rid : String)
    (ha : annLookup cr.annotations requestIdKey = some rid) :
    annLookup out.req.annotations requestIdKey = some rid ∧
      (∀ p c labels, ExtCall.enroll p c labels ∉ out.calls) := by
  unfold reconcile at h
  split at h
  · cases h
    exact ⟨ha, by simp⟩
  · rw [Option.map_eq_some'] at h
    obtain ⟨io, hio, rfl⟩ := h
    have hp := applyDefer_proj env io
    rw [hp.2.1, hp.2.2.2.1]
    exact inner_ann_noEnroll env cr io hio rid ha

theorem reconcile_total (env : Env) (cr : CertificateRequest)
    (ha : cr.annotations ≠ none) : (reconcile env cr).isSome := by
  unfold reconcile
  split
  · simp
  · rw [Option.isSome_map']
    exact inner_total env cr ha

theorem runSeq_failureTime (envs : List Env) (cr fin : CertificateRequest)
    (calls : List ExtCall) (h : runSeq envs cr = some (fin, calls)) (t : Nat)
    (ht : cr.failureTime = some t) : fin.failureTime = some t := by
  induction envs generalizing cr calls with
  | nil =>
    unfold runSeq at h
    cases h
    exact ht
  | cons e rest ih =>
    unfold runSeq at h
    split at h
    · cases h
    · next out hout =>
      rw [Option.map_eq_some'] at h
      obtain ⟨⟨fin1, calls1⟩, hrest, hmk⟩ := h
      cases hmk
      exact ih out.req calls1 hrest (reconcile_failureTime e cr out hout t ht)

theorem reconcile_ann_still (env : Env) (cr : CertificateRequest)
    (out : ReconcileOutput) (h : reconcile env cr = some out) (rid : String)
    (ha : annLookup cr.annotations requestIdKey = some rid) :
    annLookup out.req.annotations requestIdKey = some rid :=
  (reconcile_ann_noEnroll env cr out h rid ha).1

theorem runSeq_noEnroll (envs : List Env) (cr fin : CertificateRequest)
    (calls : List ExtCall) (h : runSeq envs cr = some (fin, calls)) (rid : String)
    (ha : annLookup cr.annotations requestIdKey = some rid) :
    (∀ p c labels, ExtCall.enroll p c labels ∉ calls) ∧
      annLookup fin.annotations requestIdKey = some rid := by
  induction envs generalizing cr calls with
  | nil =>
    unfold runSeq at h
    cases h
    exact ⟨by simp, ha⟩
  | cons e rest ih =>
    unfold runSeq at h
    split at h
    · cases h
    · next out hout =>
      rw [Option.map_eq_some'] at h
      obtain ⟨⟨fin1, calls1⟩, hrest, hmk⟩ := h
      cases hmk
      have h1 := reconcile_ann_noEnroll e cr out hout rid ha
      have h2 := ih out.req calls1 hrest h1.1
      refine ⟨?_, h2.2⟩
      intro p c labels hmem
      rw [List.mem_append] at hmem
      rcases hmem with hm | hm
      · exact h1.2 p c labels hm
      · exact h2.1 p c labels hm


/-- C5: a CertificateRequest whose issuerRef group is foreign, or whose
Ready condition is already True, or already False with reason Failed or
Denied, is ignored: reconcile performs no Horizon call, returns the object
unmutated, no error, no retry directive, and does not even attempt the
status persist. -/
theorem C5_terminal_short_circuit (env : Env) (cr : CertificateRequest)
    (h : cr.issuerRefGroup ≠ env.ourGroup
      ∨ hasCondition cr.conditions "Ready" "True" "" = true
      ∨ hasCondition cr.conditions "Ready" "False" "Failed" = true
      ∨ hasCondition cr.conditions "Ready" "False" "Denied" = true) :
    reconcile env cr = some ⟨cr, zeroResult, none, [], 0⟩ := by
  unfold reconcile earlyIgnore
  rcases h with h | h | h | h
  · simp [bne_iff_ne, h]
  · simp [h]
  · simp [h]
  · simp [h]

/-- C5 witness at the foreign-group fixture. -/
theorem C5_terminal_short_circuit_witness :
    reconcile fxEnv fxCRForeign = some ⟨fxCRForeign, zeroResult, none, [], 0⟩ :=
  C5_terminal_short_circuit fxEnv fxCRForeign (Or.inl (by decide))


/-- C3 (amended): the status persist runs exactly once on every exit path
that passes the early-ignore screens, and zero times on the screened-out
ignore paths, which return before the deferred persist is installed. -/
theorem C3_persist_once_after_screen (env : Env) (cr : CertificateRequest)
    (out : ReconcileOutput) (h : reconcile env cr = some out) :
    out.persistAttempts = if earlyIgnore env cr then 0 else 1 := by
  unfold reconcile at h
  split at h
  · next hc =>
    cases h
    simp [hc]
  · next hc =>
    rw [Option.map_eq_some'] at h
    obtain ⟨io, _, rfl⟩ := h
    simp [hc, (applyDefer_proj env io).2.2.2.2]

/-- C3 witness: on the fresh request, past the screens, the persist is
attempted exactly once. -/
theorem C3_persist_once_after_screen_witness :
    ∃ out, reconcile fxEnv fxCR = some out ∧
      out.persistAttempts = if earlyIgnore fxEnv fxCR then 0 else 1 := by
  refine ⟨_, rfl, ?_⟩
  exact C3_persist_once_after_screen fxEnv fxCR _ rfl

/-- C3 counterexample to the claim as stated: on the early no-op path of a
loaded foreign-group request, the status is not persisted at all (zero
update attempts), not exactly once. -/
theorem C3_persist_once_after_screen_cex :
    (reconcile fxEnv fxCRForeign).map (fun o => o.persistAttempts) = some 0 := by
  rfl

/-- C8: an issuerRef kind the scheme does not recognize is absorbed: Ready
is set to False with reason Failed carrying the wrapped issuerRef error
text, and reconcile returns a nil error and the zero result, stopping the
backoff loop. -/
theorem C8_unrecognized_kind_absorbed (env : Env) (cr : CertificateRequest)
    (hscreen : earlyIgnore env cr = false)
    (hden : isDenied cr.conditions = false)
    (hkind : env.recognizedKinds.contains cr.issuerRefKind = false)
    (hpersist : env.statusUpdateErr = none) :
    ∃ out, reconcile env cr = some out ∧
      getCondition out.req.conditions "Ready" =
        some ⟨"Ready", "False", "Failed", (RError.issuerRef cr.issuerRefKind).text⟩ ∧
      out.err = none ∧ out.result = zeroResult ∧ out.calls = [] := by
  have hinner : inner env cr = some
      ⟨setReady cr "False" "Failed" (RError.issuerRef cr.issuerRefKind).text,
        zeroResult, none, []⟩ := by
    have hkind' : cr.issuerRefKind ∉ env.recognizedKinds := by
      intro hm
      rw [← List.elem_iff] at hm
      rw [List.contains] at hkind
      rw [hkind] at hm
      cases hm
    unfold inner
    simp [hden, hkind']
  refine ⟨⟨setReady cr "False" "Failed" (RError.issuerRef cr.issuerRefKind).text,
      zeroResult, none, [], 1⟩, ?_, ?_, rfl, rfl, rfl⟩
  · rw [reconcile_eq_of_inner env cr _ hscreen hinner,
      applyDefer_of_ok env _ hpersist rfl]
  · exact getCondition_setCondition_self cr.conditions _

/-- C8 witness at the unknown-kind fixture. -/
theorem C8_unrecognized_kind_absorbed_witness :
    ∃ out, reconcile fxEnv fxCRUnknownKind = some out ∧
      getCondition out.req.conditions "Ready" =
        some ⟨"Ready", "False", "Failed", (RError.issuerRef fxCRUnknownKind.issuerRefKind).text⟩ ∧
      out.err = none ∧ out.result = zeroResult ∧ out.calls = [] :=
  C8_unrecognized_kind_absorbed fxEnv fxCRUnknownKind rfl rfl rfl rfl

/-- C10: the submission branch needs a non-nil annotation map. A request
with nil annotations that reaches the enroll path makes reconcile fault
(none, the Go panic on a nil-map write) instead of returning an error,
while any request with a non-nil annotation map never faults. -/
theorem C10_nil_annotation_map_faults (env : Env) (cr : CertificateRequest) :
    (∀ iss r, reachesClient env cr iss → isApproved cr.conditions = false →
      cr.annotations = none →
      env.horizonEnroll iss.spec.profile cr.request [] = .ok r →
      reconcile env cr = none) ∧
    (∀ anns, cr.annotations = some anns → (reconcile env cr).isSome) := by
  constructor
  · intro iss r hr hnap hnil henr
    obtain ⟨hscreen, hden, hrec, hkind, hgi, hready, hsec', hurl⟩ := hr
    obtain ⟨sec, hsec⟩ := Option.isSome_iff_exists.mp hsec'
    have hrec' : cr.issuerRefKind ∈ env.recognizedKinds := mem_of_contains hrec
    rw [hkind] at hrec'
    have hinner : inner env cr = none := by
      unfold inner
      simp [hden, hrec', hkind, hgi, hready, hsec, hurl, hnap, hnil, annLookup, henr]
    unfold reconcile
    rw [hscreen]
    simp [hinner]
  · intro anns hanns
    exact reconcile_total env cr (by rw [hanns]; exact Option.some_ne_none anns)

/-- C10 witness: the nil-annotations fixture faults; the fresh fixture with
an empty but non-nil map does not. -/
theorem C10_nil_annotation_map_faults_witness :
    reconcile fxEnv fxCRNil = none ∧ (reconcile fxEnv fxCR).isSome := by
  constructor
  · exact (C10_nil_annotation_map_faults fxEnv fxCRNil).1 fxIss ⟨"req-42", "pending", ""⟩
      ⟨rfl, rfl, rfl, rfl, rfl, rfl, rfl, rfl⟩ rfl rfl rfl
  · exact (C10_nil_annotation_map_faults fxEnv fxCR).2 [] rfl


/-- C4: when denial is newly detected (denied signal present, Ready not yet
terminal), reconcile sets FailureTime to the clock only if it was unset,
sets Ready to False/Denied, and returns no error and no retry directive;
moreover FailureTime, once populated, survives any single reconcile and any
sequence of reconciles unchanged. -/
theorem C4_denied_failure_time_set_once (env : Env) (cr : CertificateRequest) :
    (∀ out, earlyIgnore env cr = false → isDenied cr.conditions = true →
      env.statusUpdateErr = none → reconcile env cr = some out →
      out.req.failureTime = some (cr.failureTime.getD env.now) ∧
      getCondition out.req.conditions "Ready" =
        some ⟨"Ready", "False", "Denied",
          "The CertificateRequest was denied by an approval controller"⟩ ∧
      out.err = none ∧ out.result = zeroResult ∧ out.calls = []) ∧
    (∀ out t, reconcile env cr = some out → cr.failureTime = some t →
      out.req.failureTime = some t) ∧
    (∀ envs fin calls t, runSeq envs cr = some (fin, calls) →
      cr.failureTime = some t → fin.failureTime = some t) := by
  refine ⟨?_, ?_, ?_⟩
  · intro out hscreen hden hpersist h
    have hinner : inner env cr = some
        ⟨setReady (if cr.failureTime.isNone then { cr with failureTime := some env.now } else cr)
          "False" "Denied" "The CertificateRequest was denied by an approval controller",
          zeroResult, none, []⟩ := by
      unfold inner
      simp [hden]
    rw [reconcile_eq_of_inner env cr _ hscreen hinner,
      applyDefer_of_ok env _ hpersist rfl] at h
    cases h
    refine ⟨?_, getCondition_setCondition_self _ _, rfl, rfl, rfl⟩
    cases hft : cr.failureTime <;> simp [setReady, hft]
  · intro out t h ht
    exact reconcile_failureTime env cr out h t ht
  · intro envs fin calls t h ht
    exact runSeq_failureTime envs cr fin calls h t ht

/-- C4 witness: a newly denied request gets FailureTime = clock 41 and
Ready False/Denied with no error and no requeue; a request whose
FailureTime is already 7 keeps it across one reconcile and across a
two-reconcile sequence. -/
theorem C4_denied_failure_time_set_once_witness :
    (∃ out, reconcile fxEnv fxCRDenied = some out ∧
      out.req.failureTime = some (fxCRDenied.failureTime.getD fxEnv.now) ∧
      getCondition out.req.conditions "Ready" =
        some ⟨"Ready", "False", "Denied",
          "The CertificateRequest was denied by an approval controller"⟩ ∧
      out.err = none ∧ out.result = zeroResult ∧ out.calls = []) ∧
    (∃ out, reconcile fxEnv fxCRDeniedSet = some out ∧
      out.req.failureTime = some 7) ∧
    (∃ fin calls, runSeq [fxEnv, fxEnv] fxCRDeniedSet = some (fin, calls) ∧
      fin.failureTime = some 7) := by
  refine ⟨⟨_, rfl, ?_⟩, ⟨_, rfl, ?_⟩, ⟨_, _, rfl, ?_⟩⟩
  · exact (C4_denied_failure_time_set_once fxEnv fxCRDenied).1 _ rfl rfl rfl rfl
  · exact (C4_denied_failure_time_set_once fxEnv fxCRDeniedSet).2.1 _ 7 rfl rfl
  · exact (C4_denied_failure_time_set_once fxEnv fxCRDeniedSet).2.2 [fxEnv, fxEnv] _ _ 7 rfl rfl

/-- C6: with the correlation annotation present and the external status not
completed, reconcile returns the object entirely unchanged (so the
annotation, the stored certificate, and the False/Pending Ready condition
all stay as they were), makes exactly the one get-by-id call, and returns
the fixed 1-minute retry directive, with no error -- on every such
invocation, so no backoff grows at this layer. -/
theorem C6_pending_fixed_interval (env : Env) (cr : CertificateRequest)
    (iss : IssuerRes) (rid : String) (req : ExternalRequest)
    (hr : reachesClient env cr iss)
    (hnap : isApproved cr.conditions = false)
    (ha : annLookup cr.annotations requestIdKey = some rid)
    (hready : hasCondition cr.conditions "Ready" "False" "Pending" = true)
    (hget : env.horizonGet rid = .ok req)
    (hnc : (req.status == "completed") = false)
    (hpersist : env.statusUpdateErr = none) :
    reconcile env cr = some ⟨cr, ⟨true, timeMinute⟩, none, [.getById rid], 1⟩ ∧
    hasCondition cr.conditions "Ready" "False" "Pending" = true := by
  obtain ⟨hscreen, hden, hrec, hkind, hgi, hrdy, hsec', hurl⟩ := hr
  obtain ⟨sec, hsec⟩ := Option.isSome_iff_exists.mp hsec'
  have hrec' : cr.issuerRefKind ∈ env.recognizedKinds := mem_of_contains hrec
  rw [hkind] at hrec'
  have hinner : inner env cr = some ⟨cr, ⟨true, timeMinute⟩, none, [.getById rid]⟩ := by
    unfold inner
    simp [hden, hrec', hkind, hgi, hrdy, hsec, hurl, hnap, ha, hget, hnc]
  rw [reconcile_eq_of_inner env cr _ hscreen hinner,
    applyDefer_of_ok env _ hpersist rfl]
  exact ⟨rfl, hready⟩

/-- C6 witness at the polling fixture with a pending answer. -/
theorem C6_pending_fixed_interval_witness :
    reconcile fxEnvPend fxCRPolling
      = some ⟨fxCRPolling, ⟨true, timeMinute⟩, none, [.getById "req-42"], 1⟩ ∧
    hasCondition fxCRPolling.conditions "Ready" "False" "Pending" = true :=
  C6_pending_fixed_interval fxEnvPend fxCRPolling fxIss "req-42" ⟨"req-42", "pending", ""⟩
    ⟨rfl, rfl, rfl, rfl, rfl, rfl, rfl, rfl⟩ rfl rfl rfl rfl rfl rfl

/-- C7: whenever the action step produced an error, the deferred block
first writes Ready False/Pending carrying that error's text, then attempts
the persist; if the persist succeeds the action error and result are passed
through, and if the persist also fails the returned error is the aggregate
of both (neither dropped) and the returned directive is the zero result. -/
theorem C7_error_written_then_aggregated (env : Env) (cr : CertificateRequest)
    (io : InnerOut) (e : RError)
    (hscreen : earlyIgnore env cr = false)
    (hio : inner env cr = some io)
    (he : io.err = some e) :
    ∃ out, reconcile env cr = some out ∧
      getCondition out.req.conditions "Ready" = some ⟨"Ready", "False", "Pending", e.text⟩ ∧
      (env.statusUpdateErr = none → out.err = some e ∧ out.result = io.result) ∧
      (∀ msg, env.statusUpdateErr = some msg →
        out.err = some (.aggregate2 e (.apiError msg)) ∧ out.result = zeroResult) := by
  refine ⟨applyDefer env io, reconcile_eq_of_inner env cr io hscreen hio, ?_, ?_, ?_⟩
  · cases hp : env.statusUpdateErr with
    | none =>
      rw [applyDefer_of_err_persistOk env io e hp he]
      exact getCondition_setCondition_self _ _
    | some msg =>
      rw [applyDefer_of_err_persistFail env io e msg hp he]
      exact getCondition_setCondition_self _ _
  · intro hp
    rw [applyDefer_of_err_persistOk env io e hp he]
    exact ⟨rfl, rfl⟩
  · intro msg hp
    rw [applyDefer_of_err_persistFail env io e msg hp he]
    exact ⟨rfl, rfl⟩

/-- C7 witness: issuer not ready and a conflicting status update yield the
Pending condition carrying the error text and the aggregate of the two
failures with the zero directive. -/
theorem C7_error_written_then_aggregated_witness :
    ∃ out, reconcile fxEnvNotReady fxCR = some out ∧
      getCondition out.req.conditions "Ready"
        = some ⟨"Ready", "False", "Pending", RError.issuerNotReady.text⟩ ∧
      (fxEnvNotReady.statusUpdateErr = none →
        out.err = some RError.issuerNotReady ∧ out.result = zeroResult) ∧
      (∀ msg, fxEnvNotReady.statusUpdateErr = some msg →
        out.err = some (.aggregate2 RError.issuerNotReady (.apiError msg)) ∧
        out.result = zeroResult) := by
  have h := C7_error_written_then_aggregated fxEnvNotReady fxCR
    ⟨fxCR, zeroResult, some RError.issuerNotReady, []⟩ RError.issuerNotReady rfl rfl rfl
  exact h


/-- C2 (amended): once the correlation annotation is set, neither a single
reconcile nor any sequence of reconciles ever calls submit-enrollment again
(at-most-once submission); and a reconcile that actually reaches the
Horizon client with the request not yet approved performs exactly the one
get-by-id call. (Reconciles that stop earlier -- denial, unresolvable or
unready issuer, and so on -- make no Horizon call at all, so the original
"every reconcile calls get-by-id" is too strong.) -/
theorem C2_no_resubmission (env : Env) (cr : CertificateRequest) (rid : String)
    (ha : annLookup cr.annotations requestIdKey = some rid) :
    (∀ out, reconcile env cr = some out →
      ∀ p c labels, ExtCall.enroll p c labels ∉ out.calls) ∧
    (∀ envs fin calls, runSeq envs cr = some (fin, calls) →
      ∀ p c labels, ExtCall.enroll p c labels ∉ calls) ∧
    (∀ iss out, reachesClient env cr iss → isApproved cr.conditions = false →
      reconcile env cr = some out → out.calls = [.getById rid]) := by
  refine ⟨?_, ?_, ?_⟩
  · intro out h p c labels
    exact (reconcile_ann_noEnroll env cr out h rid ha).2 p c labels
  · intro envs fin calls h p c labels
    exact (runSeq_noEnroll envs cr fin calls h rid ha).1 p c labels
  · intro iss out hr hnap h
    obtain ⟨hscreen, hden, hrec, hkind, hgi, hrdy, hsec', hurl⟩ := hr
    obtain ⟨sec, hsec⟩ := Option.isSome_iff_exists.mp hsec'
    have hrec' : cr.issuerRefKind ∈ env.recognizedKinds := mem_of_contains hrec
    rw [hkind] at hrec'
    unfold reconcile at h
    rw [hscreen] at h
    simp only [Bool.false_eq_true, if_false, Option.map_eq_some'] at h
    obtain ⟨io, hio, rfl⟩ := h
    rw [(applyDefer_proj env io).2.2.2.1]
    unfold inner at hio
    simp [hden, hrec', hkind, hgi, hrdy, hsec, hurl, hnap, ha] at hio
    split at hio
    · cases hio
      rfl
    · split at hio
      · cases hio
        rfl
      · cases hio
        rfl

/-- C2 witness: with the annotation set and the external state pending, one
reconcile makes exactly the get-by-id call and no enrollment, and a
two-step sequence never enrolls either. -/
theorem C2_no_resubmission_witness :
    (∃ out, reconcile fxEnvPend fxCRPolling = some out ∧
      (∀ p c labels, ExtCall.enroll p c labels ∉ out.calls) ∧
      out.calls = [.getById "req-42"]) ∧
    (∃ fin calls, runSeq [fxEnvPend, fxEnvPend] fxCRPolling = some (fin, calls) ∧
      (∀ p c labels, ExtCall.enroll p c labels ∉ calls)) := by
  constructor
  · refine ⟨_, rfl, ?_, ?_⟩
    · exact (C2_no_resubmission fxEnvPend fxCRPolling "req-42" rfl).1 _ rfl
    · exact (C2_no_resubmission fxEnvPend fxCRPolling "req-42" rfl).2.2 fxIss _
        ⟨rfl, rfl, rfl, rfl, rfl, rfl, rfl, rfl⟩ rfl rfl
  · refine ⟨_, _, rfl, ?_⟩
    exact (C2_no_resubmission fxEnvPend fxCRPolling "req-42" rfl).2.1 [fxEnvPend, fxEnvPend]
      _ _ rfl

/-- C2 counterexample to the claim as stated: a request with the
correlation annotation set and a non-terminal Ready condition that has
meanwhile been denied is reconciled without any get-by-id call. -/
theorem C2_no_resubmission_cex :
    annLookup fxCRDeniedMid.annotations requestIdKey = some "req-42" ∧
    earlyIgnore fxEnv fxCRDeniedMid = false ∧
    (reconcile fxEnv fxCRDeniedMid).map (fun o => o.calls) = some [] :=
  ⟨rfl, rfl, rfl⟩

/-- C9 (amended): an endpoint-URL parse failure is returned as a wrapped
invalid-base-url error (the transient tier, retried by the scheduler's
backoff, with only a non-terminal False/Pending condition written by the
deferred block); an unsupported-but-registered issuer variant is instead
absorbed: Ready is set to the terminal False/Failed and a nil error is
returned, which stops the backoff. -/
theorem C9_url_error_vs_variant_absorbed (env : Env) (cr : CertificateRequest) :
    (∀ iss sec, earlyIgnore env cr = false → isDenied cr.conditions = false →
      env.recognizedKinds.contains cr.issuerRefKind = true →
      cr.issuerRefKind = "Issuer" →
      env.getIssuer cr.ns cr.issuerRefName = some iss → iss.ready = true →
      env.getSecret cr.ns iss.spec.authSecretName = some sec →
      env.urlParses iss.spec.url = false →
      env.statusUpdateErr = none →
      ∃ out, reconcile env cr = some out ∧
        out.err = some (.invalidBaseUrl iss.spec.url) ∧
        getCondition out.req.conditions "Ready" =
          some ⟨"Ready", "False", "Pending", (RError.invalidBaseUrl iss.spec.url).text⟩ ∧
        out.result = zeroResult) ∧
    (earlyIgnore env cr = false → isDenied cr.conditions = false →
      env.recognizedKinds.contains cr.issuerRefKind = true →
      cr.issuerRefKind ≠ "Issuer" →
      env.statusUpdateErr = none →
      ∃ out, reconcile env cr = some out ∧ out.err = none ∧
        getCondition out.req.conditions "Ready" =
          some ⟨"Ready", "False", "Failed",
            (RError.unexpectedIssuerType cr.issuerRefKind).text⟩ ∧
        out.result = zeroResult) := by
  constructor
  · intro iss sec hscreen hden hrec hkind hgi hrdy hsec hurl hpersist
    have hrec' : cr.issuerRefKind ∈ env.recognizedKinds := mem_of_contains hrec
    rw [hkind] at hrec'
    have hinner : inner env cr
        = some ⟨cr, zeroResult, some (.invalidBaseUrl iss.spec.url), []⟩ := by
      unfold inner
      simp [hden, hrec', hkind, hgi, hrdy, hsec, hurl]
    rw [reconcile_eq_of_inner env cr _ hscreen hinner,
      applyDefer_of_err_persistOk env _ _ hpersist rfl]
    exact ⟨_, rfl, rfl, getCondition_setCondition_self _ _, rfl⟩
  · intro hscreen hden hrec hkind hpersist
    have hrec' : cr.issuerRefKind ∈ env.recognizedKinds := mem_of_contains hrec
    have hinner : inner env cr = some
        ⟨setReady cr "False" "Failed" (RError.unexpectedIssuerType cr.issuerRefKind).text,
          zeroResult, none, []⟩ := by
      unfold inner
      simp [hden, hrec', bne_iff_ne, hkind]
    rw [reconcile_eq_of_inner env cr _ hscreen hinner,
      applyDefer_of_ok env _ hpersist rfl]
    exact ⟨_, rfl, rfl, getCondition_setCondition_self _ _, rfl⟩

/-- C9 witness: the unparseable-URL fixture yields the wrapped error and a
Pending condition; the registered ClusterIssuer variant fixture yields a
nil error and a terminal Failed condition. -/
theorem C9_url_error_vs_variant_absorbed_witness :
    (∃ out, reconcile fxEnvBadUrl fxCR = some out ∧
      out.err = some (.invalidBaseUrl fxIss.spec.url) ∧
      getCondition out.req.conditions "Ready" =
        some ⟨"Ready", "False", "Pending", (RError.invalidBaseUrl fxIss.spec.url).text⟩ ∧
      out.result = zeroResult) ∧
    (∃ out, reconcile fxEnvVariant fxCRVariant = some out ∧ out.err = none ∧
      getCondition out.req.conditions "Ready" =
        some ⟨"Ready", "False", "Failed",
          (RError.unexpectedIssuerType fxCRVariant.issuerRefKind).text⟩ ∧
      out.result = zeroResult) :=
  ⟨(C9_url_error_vs_variant_absorbed fxEnvBadUrl fxCR).1 fxIss
      [("username", "u"), ("password", "p")] rfl rfl rfl rfl rfl rfl rfl rfl rfl,
    (C9_url_error_vs_variant_absorbed fxEnvVariant fxCRVariant).2 rfl rfl rfl
      (by decide) rfl⟩

/-- C9 counterexample to the claim as stated: the unsupported
ClusterIssuer variant does not return a wrapped error; it returns a nil
error with a terminal Failed condition. -/
theorem C9_url_error_vs_variant_absorbed_cex :
    (reconcile fxEnvVariant fxCRVariant).map (fun o => o.err) = some none ∧
    (reconcile fxEnvVariant fxCRVariant).map (fun o => getCondition o.req.conditions "Ready")
      = some (some ⟨"Ready", "False", "Failed", "unexpected issuer type: ClusterIssuer"⟩) :=
  ⟨rfl, rfl⟩


/-- C1: the three-reconcile happy path of a fresh request. First reconcile:
exactly one submit-enrollment call with the issuer's profile, the raw CSR
and an empty label set; the returned id is stored under the correlation
key, Ready becomes False/Pending, and the directive is requeue after one
minute. Second reconcile (external status pending): exactly one get-by-id
call, the object is returned unchanged, same one-minute directive. Third
reconcile (external status completed with certificate bytes): exactly one
get-by-id call, the certificate is copied into status, Approved is set
True, Ready becomes True/Issued, and no retry directive is returned. -/
theorem C1_end_to_end_scenario (env1 env2 env3 : Env) (cr : CertificateRequest)
    (iss : IssuerRes) (anns : List (String × String)) (rid certBytes : String)
    (hr : reachesClient env1 cr iss)
    (hpersist : env1.statusUpdateErr = none)
    (hupdate : env1.updateErr = none)
    (hann : cr.annotations = some anns)
    (hnoid : annLookup cr.annotations requestIdKey = none)
    (hfresh : cr.conditions = [])
    (henroll : env1.horizonEnroll iss.spec.profile cr.request [] = .ok ⟨rid, "pending", ""⟩)
    (hag2 : envAgrees env1 env2) (hag3 : envAgrees env1 env3)
    (hget2 : env2.horizonGet rid = .ok ⟨rid, "pending", ""⟩)
    (hget3 : env3.horizonGet rid = .ok ⟨rid, "completed", certBytes⟩) :
    ∃ out1 out2 out3,
      reconcile env1 cr = some out1 ∧
      out1.calls = [.enroll iss.spec.profile cr.request []] ∧
      annLookup out1.req.annotations requestIdKey = some rid ∧
      getCondition out1.req.conditions "Ready"
        = some ⟨"Ready", "False", "Pending", "Submitted request to Horizon"⟩ ∧
      out1.result = ⟨true, timeMinute⟩ ∧ out1.err = none ∧
      reconcile env2 out1.req = some out2 ∧
      out2.calls = [.getById rid] ∧
      out2.req = out1.req ∧
      out2.result = ⟨true, timeMinute⟩ ∧ out2.err = none ∧
      reconcile env3 out2.req = some out3 ∧
      out3.calls = [.getById rid] ∧
      out3.req.certificate = some certBytes ∧
      getCondition out3.req.conditions "Approved"
        = some ⟨"Approved", "True", "horizon.evertrust.io", "Request approved on Horizon"⟩ ∧
      getCondition out3.req.conditions "Ready" = some ⟨"Ready", "True", "Issued", "Signed"⟩ ∧
      out3.result = zeroResult ∧ out3.err = none := by
  obtain ⟨hscreen, hden, hrec, hkind, hgi, hrdy, hsec', hurl⟩ := hr
  obtain ⟨sec, hsec⟩ := Option.isSome_iff_exists.mp hsec'
  have hrec' : cr.issuerRefKind ∈ env1.recognizedKinds := mem_of_contains hrec
  rw [hkind] at hrec'
  have hgf : (cr.issuerRefGroup != env1.ourGroup) = false := by
    unfold earlyIgnore at hscreen
    simp only [Bool.or_eq_false_iff] at hscreen
    exact hscreen.1.1.1
  rw [hann] at hnoid
  have hgeq : cr.issuerRefGroup = env1.ourGroup := by
    simpa using hgf
  obtain ⟨hag2g, hag2k, hag2i, hag2s, hag2u, hag2e, hag2p⟩ := hag2
  obtain ⟨hag3g, hag3k, hag3i, hag3s, hag3u, hag3e, hag3p⟩ := hag3
  -- step 1: submission
  have hinner1 : inner env1 cr = some
      ⟨submittedCR cr anns rid, ⟨true, timeMinute⟩, none,
        [.enroll iss.spec.profile cr.request []]⟩ := by
    unfold inner
    simp [isDenied, hrec', hkind, hgi, hrdy, hsec, hurl, hfresh, hnoid, hann, henroll, hupdate,
      isApproved, setReady, setCondition, submittedCR, annInsert]
  have hstep1 : reconcile env1 cr = some
      ⟨submittedCR cr anns rid, ⟨true, timeMinute⟩, none,
        [.enroll iss.spec.profile cr.request []], 1⟩ := by
    rw [reconcile_eq_of_inner env1 cr _ hscreen hinner1, applyDefer_of_ok env1 _ hpersist rfl]
  -- step 2: pending poll
  have hscreen2 : earlyIgnore env2 (submittedCR cr anns rid) = false := by
    unfold earlyIgnore
    simp [hasCondition, submittedCR, ← hag2g, hgeq]
  have hinner2 : inner env2 (submittedCR cr anns rid) = some
      ⟨submittedCR cr anns rid, ⟨true, timeMinute⟩, none, [.getById rid]⟩ := by
    unfold inner
    rw [← hag2k, ← hag2i, ← hag2s, ← hag2u]
    simp [isDenied, hrec', hkind, hgi, hrdy, hsec, hurl, isApproved,
      annLookup_annInsert, hget2, submittedCR]
  have hstep2 : reconcile env2 (submittedCR cr anns rid) = some
      ⟨submittedCR cr anns rid, ⟨true, timeMinute⟩, none, [.getById rid], 1⟩ := by
    rw [reconcile_eq_of_inner env2 _ _ hscreen2 hinner2,
      applyDefer_of_ok env2 _ (by rw [← hag2p]; exact hpersist) rfl]
  -- step 3: completion
  have hscreen3 : earlyIgnore env3 (submittedCR cr anns rid) = false := by
    unfold earlyIgnore
    simp [hasCondition, submittedCR, ← hag3g, hgeq]
  have hinner3 : inner env3 (submittedCR cr anns rid) = some
      ⟨issuedCR cr anns rid certBytes, zeroResult, none, [.getById rid]⟩ := by
    unfold inner
    rw [← hag3k, ← hag3i, ← hag3s, ← hag3u]
    simp [isDenied, hrec', hkind, hgi, hrdy, hsec, hurl, isApproved,
      annLookup_annInsert, hget3, setReady, setCondition, submittedCR, issuedCR]
  have hstep3 : reconcile env3 (submittedCR cr anns rid) = some
      ⟨issuedCR cr anns rid certBytes, zeroResult, none, [.getById rid], 1⟩ := by
    rw [reconcile_eq_of_inner env3 _ _ hscreen3 hinner3,
      applyDefer_of_ok env3 _ (by rw [← hag3p]; exact hpersist) rfl]
  refine ⟨_, _, _, hstep1, rfl, annLookup_annInsert anns requestIdKey rid, ?_, rfl, rfl,
    hstep2, rfl, rfl, rfl, rfl, hstep3, rfl, rfl, ?_, ?_, rfl, rfl⟩
  · simp [submittedCR, getCondition, List.find?]
  · simp [issuedCR, getCondition, List.find?]
  · simp [issuedCR, getCondition, List.find?]

/-- C1 witness: the concrete scenario of spec section 8 - issuer iss1,
profile webserver, secret cred, id req-42, certificate CERTDATA. -/
theorem C1_end_to_end_scenario_witness :
    ∃ out1 out2 out3,
      reconcile fxEnv fxCR = some out1 ∧
      out1.calls = [.enroll fxIss.spec.profile fxCR.request []] ∧
      annLookup out1.req.annotations requestIdKey = some "req-42" ∧
      getCondition out1.req.conditions "Ready"
        = some ⟨"Ready", "False", "Pending", "Submitted request to Horizon"⟩ ∧
      out1.result = ⟨true, timeMinute⟩ ∧ out1.err = none ∧
      reconcile fxEnvPend out1.req = some out2 ∧
      out2.calls = [.getById "req-42"] ∧
      out2.req = out1.req ∧
      out2.result = ⟨true, timeMinute⟩ ∧ out2.err = none ∧
      reconcile fxEnvDone out2.req = some out3 ∧
      out3.calls = [.getById "req-42"] ∧
      out3.req.certificate = some "CERTDATA" ∧
      getCondition out3.req.conditions "Approved"
        = some ⟨"Approved", "True", "horizon.evertrust.io", "Request approved on Horizon"⟩ ∧
      getCondition out3.req.conditions "Ready" = some ⟨"Ready", "True", "Issued", "Signed"⟩ ∧
      out3.result = zeroResult ∧ out3.err = none :=
  C1_end_to_end_scenario fxEnv fxEnvPend fxEnvDone fxCR fxIss [] "req-42" "CERTDATA"
    ⟨rfl, rfl, rfl, rfl, rfl, rfl, rfl, rfl⟩ rfl rfl rfl rfl rfl rfl
    ⟨rfl, rfl, rfl, rfl, rfl, rfl, rfl⟩ ⟨rfl, rfl, rfl, rfl, rfl, rfl, rfl⟩ rfl rfl

end HorizonIssuer
